import Mathlib

/-!
Verification of the obs_bible_free_version scraping pipeline.

This file gives a shallow embedding, in Lean 4, of the pure logic of the
repository scripts:

* bible-versions/scraping/apocrypha/bible_scraper.py
  (class BibleScraper: build_urls, fetch_page, clean_verse_text,
   parse_verse_page, scrape_verse, is_verse_completed, mark_verse_completed,
   load_progress / save_progress)
* bible-versions/scraping/multi_language/helpers/organize_versions_by_locale.py
  (detect_locale_from_name, organize_versions)
* bible-versions/scraping/multi_language/helpers/apply_book_name_mapping.py
  (apply_mapping_to_version_file)

Python strings are modelled by Lean String, with the handful of needed string
primitives (lower, upper, strip, single-character replace, substring test,
whitespace collapse) re-implemented over the character list so that all
definitions evaluate inside the kernel.  Python dicts are modelled by
insertion-ordered association lists, with assignment replacing the value of an
existing key in place and appending a fresh key at the end, exactly as CPython
dicts behave.  The filesystem and the network are passed in explicitly as
finite maps.
-/

/-! ## String primitives (models of the Python str methods used by the code) -/

/-- Model of Python str.lower (used as version_name.lower(), book.lower()). -/
def lowerStr (s : String) : String := String.mk (s.data.map Char.toLower)

/-- Model of Python str.upper (used as translation_name.upper(), stem.upper()). -/
def upperStr (s : String) : String := String.mk (s.data.map Char.toUpper)

/-- Model of Python str.replace with single-character pattern and replacement,
as in book.replace(' ', '_') and book.replace('_', ' ').  For one-character
arguments Python substring replacement is exactly a character map. -/
def replaceChar (s : String) (a b : Char) : String :=
  String.mk (s.data.map (fun c => if c = a then b else c))

/-- Drop leading whitespace characters of a character list. -/
def dropLeadWs : List Char → List Char
  | [] => []
  | c :: cs => if c.isWhitespace then dropLeadWs cs else c :: cs

/-- Model of Python str.strip with no arguments: remove leading and trailing
whitespace. -/
def trimStr (s : String) : String :=
  String.mk (dropLeadWs (dropLeadWs s.data.reverse).reverse)

/-- Decide whether the character list p is a prefix of l. -/
def prefixChars : List Char → List Char → Bool
  | [], _ => true
  | _ :: _, [] => false
  | a :: as, b :: bs => a = b && prefixChars as bs

/-- Decide whether pat occurs as a contiguous substring, at any position. -/
def infixChars (pat : List Char) : List Char → Bool
  | [] => pat.isEmpty
  | c :: cs => prefixChars pat (c :: cs) || infixChars pat cs

/-- Model of the Python test pat in s on strings (substring containment). -/
def containsSub (s pat : String) : Bool := infixChars pat.data s.data

/-- Collapse every maximal run of whitespace to one space, carrying a flag that
records whether the previous character was part of a whitespace run. -/
def collapseWsAux : Bool → List Char → List Char
  | _, [] => []
  | prevWs, c :: cs =>
    if c.isWhitespace then
      if prevWs then collapseWsAux true cs else ' ' :: collapseWsAux true cs
    else c :: collapseWsAux false cs

/-- Model of re.sub applied with pattern backslash-s-plus and replacement one
space: every maximal whitespace run becomes a single space. -/
def collapseWs (s : String) : String := String.mk (collapseWsAux false s.data)

/-- Decide whether the string s ends with the string post (Python str.endswith),
by comparing reversed character lists. -/
def endsWithStr (s post : String) : Bool := prefixChars post.data.reverse s.data.reverse

/-- Drop the last n characters of a string (Python s[:-n] for n greater than 0). -/
def dropRightStr (s : String) (n : Nat) : String :=
  String.mk (s.data.take (s.data.length - n))

/-- Last path component of a slash-separated path: the characters after the
final slash (the whole string when there is no slash). -/
def lastPathComponent (s : String) : String :=
  String.mk ((s.data.reverse.takeWhile (fun c => c ≠ '/')).reverse)

/-- Drop everything from the final dot on, in a reversed character list;
none when there is no dot. -/
def dropThroughDot : List Char → Option (List Char)
  | [] => none
  | c :: cs => if c = '.' then some cs else dropThroughDot cs

/-- Model of pathlib Path(...).stem: the final path component without its last
extension; a name without a dot, or whose only dot is its first character, is
returned whole. -/
def stemOf (s : String) : String :=
  let base := lastPathComponent s
  match dropThroughDot base.data.reverse with
  | none => base
  | some rest => if rest = [] then base else String.mk rest.reverse

/-! ## Association lists as insertion-ordered dicts -/

/-- Lookup in an insertion-ordered association list (Python d.get(k) and
d[k]): the first entry with the given key. -/
def alookup [DecidableEq κ] : List (κ × α) → κ → Option α
  | [], _ => none
  | (k, v) :: t, q => if k = q then some v else alookup t q

/-- Model of Python dict assignment d[k] = v: replace the value of an existing
key in place, otherwise append the new entry at the end. -/
def dictInsert [DecidableEq κ] : List (κ × α) → κ → α → List (κ × α)
  | [], k, v => [(k, v)]
  | (k0, v0) :: t, k, v =>
    if k0 = k then (k, v) :: t else (k0, v0) :: dictInsert t k v

/-- Model of Python d.setdefault(k, dflt) followed by mutating d[k] with f:
the value at k (or dflt if the key is absent) is transformed by f and stored
back. -/
def dictUpdate [DecidableEq κ] (l : List (κ × α)) (k : κ) (dflt : α) (f : α → α) :
    List (κ × α) :=
  dictInsert l k (f ((alookup l k).getD dflt))

/-- Model of Python d.update(new): entries of new are assigned into d left to
right. -/
def dictUpdateAll [DecidableEq κ] (old new : List (κ × α)) : List (κ × α) :=
  new.foldl (fun acc p => dictInsert acc p.1 p.2) old

/-- Last-occurrence lookup: the value of the last entry of l carrying the key,
used to state what a left-to-right sequence of dict assignments leaves behind. -/
def alookupLast [DecidableEq κ] : List (κ × α) → κ → Option α
  | [], _ => none
  | (k, v) :: t, q =>
    match alookupLast t q with
    | some w => some w
    | none => if k = q then some v else none

theorem alookup_dictInsert_self [DecidableEq κ] (l : List (κ × α)) (k : κ) (v : α) :
    alookup (dictInsert l k v) k = some v := by
  induction l with
  | nil => simp [dictInsert, alookup]
  | cons h t ih =>
    obtain ⟨k0, v0⟩ := h
    by_cases hk : k0 = k
    · simp [dictInsert, hk, alookup]
    · simp [dictInsert, hk, alookup, ih]

theorem alookup_dictInsert_ne [DecidableEq κ] (l : List (κ × α)) (k q : κ) (v : α)
    (h : k ≠ q) : alookup (dictInsert l k v) q = alookup l q := by
  induction l with
  | nil => simp [dictInsert, alookup, h]
  | cons hd t ih =>
    obtain ⟨k0, v0⟩ := hd
    by_cases hk : k0 = k
    · subst hk
      simp [dictInsert, alookup, h]
    · simp [dictInsert, hk, alookup, ih]

theorem alookup_append [DecidableEq κ] (l m : List (κ × α)) (q : κ) :
    alookup (l ++ m) q =
      match alookup l q with
      | some v => some v
      | none => alookup m q := by
  induction l with
  | nil => simp [alookup]
  | cons hd t ih =>
    obtain ⟨k0, v0⟩ := hd
    by_cases hk : k0 = q
    · simp [alookup, hk]
    · simp [alookup, hk, ih]

theorem alookup_dictUpdate_self [DecidableEq κ] (l : List (κ × α)) (k : κ)
    (dflt : α) (f : α → α) :
    alookup (dictUpdate l k dflt f) k = some (f ((alookup l k).getD dflt)) := by
  simp [dictUpdate, alookup_dictInsert_self]

theorem alookup_dictUpdate_ne [DecidableEq κ] (l : List (κ × α)) (k q : κ)
    (dflt : α) (f : α → α) (h : k ≠ q) :
    alookup (dictUpdate l k dflt f) q = alookup l q := by
  simp [dictUpdate, alookup_dictInsert_ne _ _ _ _ h]

theorem alookup_dictUpdateAll [DecidableEq κ] (old new : List (κ × α)) (q : κ) :
    alookup (dictUpdateAll old new) q =
      match alookupLast new q with
      | some v => some v
      | none => alookup old q := by
  induction new generalizing old with
  | nil => simp [dictUpdateAll, alookupLast]
  | cons hd t ih =>
    obtain ⟨k0, v0⟩ := hd
    have step : dictUpdateAll old ((k0, v0) :: t) = dictUpdateAll (dictInsert old k0 v0) t := by
      simp [dictUpdateAll]
    rw [step, ih]
    cases hlast : alookupLast t q with
    | some w => simp [alookupLast, hlast]
    | none =>
      by_cases hk : k0 = q
      · subst hk
        simp [alookupLast, hlast, alookup_dictInsert_self]
      · simp [alookupLast, hlast, hk, alookup_dictInsert_ne _ _ _ _ hk]

/-! ## HTTP fetcher retry loop (bible_scraper.py, fetch_page lines 200 to 225)

The network is modelled as a map from attempt index to the response that the
GET of that attempt produces.  The embedding returns the pair of the Python
return value (the Optional html text) and the number of GET requests issued,
so that "no further retry attempts" is expressible. -/

/-- Outcome of one session.get call in fetch_page: a 200 response with a body,
a 404 response, any other status code, or a raised requests.RequestException. -/
inductive HttpResponse where
  | ok (body : String)
  | notFound
  | httpError (code : Nat)
  | netError
deriving DecidableEq

/-- MAX_RETRIES of bible_scraper.py. -/
def MAX_RETRIES : Nat := 3

/-- A response on which the fetch_page loop continues to the next attempt:
neither a 200 (which returns the body) nor a 404 (which returns None at once). -/
def isRetryErr : HttpResponse → Bool
  | .ok _ => false
  | .notFound => false
  | .httpError _ => true
  | .netError => true

/-- The for attempt in range(MAX_RETRIES) loop of fetch_page, started at a
given attempt index with the given number of attempts remaining.  First
component: the value fetch_page returns; second component: how many requests
were issued in total when the loop ends. -/
def fetchAttempts (resp : Nat → HttpResponse) : Nat → Nat → Option String × Nat
  | attempt, 0 => (none, attempt)
  | attempt, fuel + 1 =>
    match resp attempt with
    | .ok body => (some body, attempt + 1)
    | .notFound => (none, attempt + 1)
    | .httpError _ => fetchAttempts resp (attempt + 1) fuel
    | .netError => fetchAttempts resp (attempt + 1) fuel

/-- The whole retry loop of fetch_page on a cache miss: up to MAX_RETRIES
attempts starting from attempt 0. -/
def fetchWithRetries (resp : Nat → HttpResponse) : Option String × Nat :=
  fetchAttempts resp 0 MAX_RETRIES

/-! ## Disk cache (bible_scraper.py, fetch_page lines 164 to 195)

One cache file per (book directory, source directory, chapter, verse), holding
the raw page text.  The store is a finite map from that key to the file
content; an absent entry is a missing file. -/

/-- Key of one cache file: html_cache/book/source/chapter-verse.htm. -/
structure CacheKey where
  book : String
  source : String
  chapter : Nat
  verse : Nat
deriving DecidableEq

/-- The cache directory as a map from key to raw file content. -/
abbrev CacheStore : Type := CacheKey → Option String

/-- Model of writing the fetched page to its cache file (fetch_page lines 207
to 213): the file is created or overwritten wholesale. -/
def cachePut (st : CacheStore) (k : CacheKey) (text : String) : CacheStore :=
  fun q => if q = k then some text else st q

/-- Model of the cache read of fetch_page (lines 180 to 192): a missing file is
a miss; a file under 100 bytes is ignored as a probable error page; a file
whose content strips to the empty string is also passed over.  Byte size is
the utf-8 size, matching how the file was written. -/
def cacheGet (st : CacheStore) (k : CacheKey) : Option String :=
  match st k with
  | none => none
  | some content =>
    if content.utf8ByteSize < 100 then none
    else if trimStr content ≠ "" then some content else none

/-- The empty cache directory. -/
def emptyCache : CacheStore := fun _ => none

/-- A 120-byte blob consisting only of spaces: large enough to pass the
byte-size check, yet stripping to the empty string. -/
def blankBlob : String := String.mk (List.replicate 120 ' ')

set_option maxRecDepth 4000

/-- Claim C2, counterexample.  The claim states that after put(k, text), get(k)
returns text whenever text is at least 100 bytes.  The code additionally
treats a blob that strips to the empty string as a miss (fetch_page line 188
only returns the cached content when content.strip() is truthy): storing a
120-byte all-whitespace blob and reading it back yields a miss even though its
size is not below the threshold. -/
theorem cache_roundtrip_counterexample :
    (blankBlob.utf8ByteSize < 100) = False ∧
      cacheGet (cachePut emptyCache ⟨"Tobit", "catholic", 1, 1⟩ blankBlob)
        ⟨"Tobit", "catholic", 1, 1⟩ = none := by
  constructor
  · decide
  · decide

/-- Claim C2, amended.  Cache round-trip: put(k, text) followed by get(k)
returns text, unless the text is below the 100-byte threshold or strips to the
empty string (whitespace-only), in which case get(k) is a miss.  This holds
over any prior store contents, since put overwrites. -/
theorem cache_roundtrip (st : CacheStore) (k : CacheKey) (text : String) :
    cacheGet (cachePut st k text) k =
      if text.utf8ByteSize < 100 ∨ trimStr text = "" then none else some text := by
  unfold cacheGet cachePut
  simp only [if_pos rfl]
  by_cases hsize : text.utf8ByteSize < 100
  · simp [hsize]
  · by_cases htrim : trimStr text = ""
    · simp [hsize, htrim]
    · simp [hsize, htrim]

/-! ## Claim C3: retry behavior of fetch_page -/

/-- Claim C3, counterexample to the distinguishability clause.  fetch_page
returns an Optional string: the value a caller sees after a 404 (return None
at line 217) is the very same None as after exhausting all retries on other
errors (line 225), so the two failure kinds are not distinguishable to the
caller.  The first component of the embedding is exactly the Python return
value; on an all-404 network and on an all-connection-error network it is
equal. -/
theorem fetch_failures_indistinguishable :
    (fetchWithRetries (fun _ => HttpResponse.notFound)).1 =
      (fetchWithRetries (fun _ => HttpResponse.netError)).1 := by
  decide

/-- Claim C3, amended.  On an attempt that yields a 404-class response (every
earlier attempt having been a retryable error), fetch_page stops at once: the
loop has issued exactly the requests so far plus this one, and returns None;
on a run of responses that are all non-2xx statuses or network errors it
issues exactly MAX_RETRIES = 3 requests and returns None.  Both failures
return the same None value: the failure kinds are not distinguishable by the
caller. -/
theorem fetch_page_retry_policy :
    (∀ resp : Nat → HttpResponse, ∀ i : Nat, i < MAX_RETRIES →
        (∀ j : Nat, j < i → isRetryErr (resp j) = true) →
        resp i = HttpResponse.notFound →
        fetchWithRetries resp = (none, i + 1)) ∧
      (∀ resp : Nat → HttpResponse,
        (∀ i : Nat, i < MAX_RETRIES → isRetryErr (resp i) = true) →
        fetchWithRetries resp = (none, MAX_RETRIES)) := by
  constructor
  · intro resp i hi hpre h404
    have hi3 : i < 3 := hi
    interval_cases i
    · unfold fetchWithRetries MAX_RETRIES fetchAttempts
      rw [h404]
    · have h0 : isRetryErr (resp 0) = true := hpre 0 (by decide)
      unfold fetchWithRetries MAX_RETRIES fetchAttempts
      cases hr : resp 0 with
      | ok b => rw [hr] at h0; simp [isRetryErr] at h0
      | notFound => rw [hr] at h0; simp [isRetryErr] at h0
      | httpError c => unfold fetchAttempts; rw [h404]
      | netError => unfold fetchAttempts; rw [h404]
    · have h0 : isRetryErr (resp 0) = true := hpre 0 (by decide)
      have h1 : isRetryErr (resp 1) = true := hpre 1 (by decide)
      unfold fetchWithRetries MAX_RETRIES fetchAttempts
      cases hr0 : resp 0 with
      | ok b => rw [hr0] at h0; simp [isRetryErr] at h0
      | notFound => rw [hr0] at h0; simp [isRetryErr] at h0
      | httpError c =>
        unfold fetchAttempts
        cases hr1 : resp 1 with
        | ok b => rw [hr1] at h1; simp [isRetryErr] at h1
        | notFound => rw [hr1] at h1; simp [isRetryErr] at h1
        | httpError c2 => unfold fetchAttempts; rw [h404]
        | netError => unfold fetchAttempts; rw [h404]
      | netError =>
        unfold fetchAttempts
        cases hr1 : resp 1 with
        | ok b => rw [hr1] at h1; simp [isRetryErr] at h1
        | notFound => rw [hr1] at h1; simp [isRetryErr] at h1
        | httpError c2 => unfold fetchAttempts; rw [h404]
        | netError => unfold fetchAttempts; rw [h404]
  · intro resp hall
    have h0 : isRetryErr (resp 0) = true := hall 0 (by decide)
    have h1 : isRetryErr (resp 1) = true := hall 1 (by decide)
    have h2 : isRetryErr (resp 2) = true := hall 2 (by decide)
    unfold fetchWithRetries MAX_RETRIES fetchAttempts
    cases hr0 : resp 0 <;> rw [hr0] at h0 <;> simp [isRetryErr] at h0 <;>
      unfold fetchAttempts <;>
        cases hr1 : resp 1 <;> rw [hr1] at h1 <;> simp [isRetryErr] at h1 <;>
          unfold fetchAttempts <;>
            cases hr2 : resp 2 <;> rw [hr2] at h2 <;> simp [isRetryErr] at h2 <;>
              unfold fetchAttempts <;> rfl

/-- Witness for fetch_page_retry_policy: a network that answers 404 on the
first attempt makes fetch_page stop after exactly one request; a network that
always times out makes it issue exactly 3 requests; both return None. -/
theorem fetch_page_retry_policy_witness :
    fetchWithRetries (fun _ => HttpResponse.notFound) = (none, 1) ∧
      fetchWithRetries (fun _ => HttpResponse.netError) = (none, 3) :=
  ⟨fetch_page_retry_policy.1 (fun _ => HttpResponse.notFound) 0 (by decide)
      (fun j hj => absurd hj (by omega)) rfl,
    fetch_page_retry_policy.2 (fun _ => HttpResponse.netError) (fun i _ => rfl)⟩

/-! ## Candidate URLs (bible_scraper.py, build_urls lines 146 to 162) -/

/-- BIBLE_HUB_BOOK_MAP of bible_scraper.py: internal book name to BibleHub URL
slug. -/
def BIBLE_HUB_BOOK_MAP : List (String × String) :=
  [("Song_of_Solomon", "songs"),
   ("1 Esdras", "1_esdras"),
   ("2 Esdras", "2_esdras"),
   ("Esther (Greek)", "esther_greek"),
   ("Wisdom of Solomon", "wisdom_of_solomon"),
   ("Ecclesiasticus (Sira)", "ecclesiasticus"),
   ("Epistle of Jeremiah", "epistle_of_jeremiah"),
   ("Prayer of Azariah", "prayer_of_azariah"),
   ("Bel and the Dragon", "bel_and_the_dragon"),
   ("Prayer of Manasseh", "prayer_of_manasseh"),
   ("1 Maccabees", "1_maccabees"),
   ("2 Maccabees", "2_maccabees")]

/-- The slug used for a book: BIBLE_HUB_BOOK_MAP.get(book, book.lower()
.replace(' ', '_')). -/
def bookSlug (book : String) : String :=
  (alookup BIBLE_HUB_BOOK_MAP book).getD (replaceChar (lowerStr book) ' ' '_')

/-- One candidate URL, the f-string of build_urls line 161. -/
def verseUrl (base slug : String) (chapter verse : Nat) : String :=
  "https://biblehub.com/" ++ base ++ "/" ++ slug ++ "/" ++ Nat.repr chapter ++
    "-" ++ Nat.repr verse ++ ".htm"

/-- build_urls: the chapter list is [chapter], extended by 6 for Epistle of
Jeremiah chapter 1; every chapter is crossed with the catholic and apocrypha
base paths, chapters outermost. -/
def build_urls (book : String) (chapter verse : Nat) : List String :=
  let slug := bookSlug book
  let chapters : List Nat :=
    if book = "Epistle of Jeremiah" ∧ chapter = 1 then [chapter, 6] else [chapter]
  chapters.foldr
    (fun ch acc => (["catholic", "apocrypha"].map (fun base => verseUrl base slug ch verse)) ++ acc)
    []

/-- Claim C4, confirmed.  For Epistle of Jeremiah chapter 1 the candidate list
for every verse v contains (in order) the chapter-1 catholic and apocrypha
URLs followed by the chapter-6 catholic and apocrypha URLs, so the fetch of
(book, 1, v) also attempts (book, 6, v); for every other (book, chapter,
verse) the candidate list consists exactly of the catholic and apocrypha URLs
of the given chapter, so only that chapter number appears. -/
theorem build_urls_chapter_alias :
    (∀ v : Nat, build_urls "Epistle of Jeremiah" 1 v =
        [verseUrl "catholic" "epistle_of_jeremiah" 1 v,
         verseUrl "apocrypha" "epistle_of_jeremiah" 1 v,
         verseUrl "catholic" "epistle_of_jeremiah" 6 v,
         verseUrl "apocrypha" "epistle_of_jeremiah" 6 v]) ∧
      (∀ book : String, ∀ chapter verse : Nat,
        book ≠ "Epistle of Jeremiah" ∨ chapter ≠ 1 →
        build_urls book chapter verse =
          [verseUrl "catholic" (bookSlug book) chapter verse,
           verseUrl "apocrypha" (bookSlug book) chapter verse]) := by
  constructor
  · intro v
    rfl
  · intro book chapter verse h
    have hcond : ¬(book = "Epistle of Jeremiah" ∧ chapter = 1) := by
      rcases h with h | h
      · exact fun hc => h hc.1
      · exact fun hc => h hc.2
    unfold build_urls
    simp [hcond]

/-- Witness for build_urls_chapter_alias: Tobit chapter 2 verse 3 gets exactly
the two chapter-2 candidate URLs. -/
theorem build_urls_chapter_alias_witness :
    build_urls "Tobit" 2 3 =
      [verseUrl "catholic" (bookSlug "Tobit") 2 3,
       verseUrl "apocrypha" (bookSlug "Tobit") 2 3] :=
  build_urls_chapter_alias.2 "Tobit" 2 3 (Or.inl (by decide))

/-! ## Progress ledger (bible_scraper.py, lines 95 to 144)

The in-memory progress object is a JSON-style map from the string key
book_chapter_verse to a boolean; save_progress serializes the whole map and
load_progress in a fresh process deserializes it back. -/

/-- The progress map. -/
abbrev ProgressMap : Type := List (String × Bool)

/-- The progress key f-string of is_verse_completed / mark_verse_completed. -/
def progressKey (book : String) (chapter verse : Nat) : String :=
  book ++ "_" ++ Nat.repr chapter ++ "_" ++ Nat.repr verse

/-- is_verse_completed: self.progress.get(progress_key, False). -/
def is_verse_completed (progress : ProgressMap) (book : String) (chapter verse : Nat) : Bool :=
  (alookup progress (progressKey book chapter verse)).getD false

/-- mark_verse_completed: self.progress[progress_key] = True (the periodic
save every 10 marks writes the same map and does not change it). -/
def mark_verse_completed (progress : ProgressMap) (book : String) (chapter verse : Nat) :
    ProgressMap :=
  dictInsert progress (progressKey book chapter verse) true

/-- save_progress: json.dump of the whole progress object.  The persisted
ledger is the serialized map itself; a write that succeeds persists exactly
the in-memory entries. -/
def save_progress (progress : ProgressMap) : ProgressMap := progress

/-- load_progress in a fresh process: json.load of the persisted ledger. -/
def load_progress (persisted : ProgressMap) : ProgressMap := persisted

/-- A whole run of mark_verse_completed calls over a list of verse keys. -/
def runMarks (progress : ProgressMap) (marks : List (String × Nat × Nat)) : ProgressMap :=
  marks.foldl (fun acc m => mark_verse_completed acc m.1 m.2.1 m.2.2) progress

theorem is_verse_completed_mark_self (p : ProgressMap) (b : String) (c v : Nat) :
    is_verse_completed (mark_verse_completed p b c v) b c v = true := by
  simp [is_verse_completed, mark_verse_completed, alookup_dictInsert_self]

theorem runMarks_preserves_true (marks : List (String × Nat × Nat)) (p : ProgressMap)
    (b : String) (c v : Nat) (h : is_verse_completed p b c v = true) :
    is_verse_completed (runMarks p marks) b c v = true := by
  induction marks generalizing p with
  | nil => exact h
  | cons m t ih =>
    have step : runMarks p (m :: t) = runMarks (mark_verse_completed p m.1 m.2.1 m.2.2) t := by
      simp [runMarks]
    rw [step]
    apply ih
    by_cases hk : progressKey m.1 m.2.1 m.2.2 = progressKey b c v
    · simp [is_verse_completed, mark_verse_completed, hk, alookup_dictInsert_self]
    · simpa [is_verse_completed, mark_verse_completed,
        alookup_dictInsert_ne _ _ _ _ hk] using h

theorem runMarks_of_mem (marks : List (String × Nat × Nat)) (p : ProgressMap)
    (b : String) (c v : Nat) (h : (b, c, v) ∈ marks) :
    is_verse_completed (runMarks p marks) b c v = true := by
  induction marks generalizing p with
  | nil => cases h
  | cons m t ih =>
    have step : runMarks p (m :: t) = runMarks (mark_verse_completed p m.1 m.2.1 m.2.2) t := by
      simp [runMarks]
    rw [step]
    rcases List.mem_cons.mp h with hm | hm
    · subst hm
      exact runMarks_preserves_true t _ b c v (is_verse_completed_mark_self p b c v)
    · exact ih _ hm

theorem runMarks_of_no_key (marks : List (String × Nat × Nat)) (p : ProgressMap)
    (b : String) (c v : Nat)
    (h : ∀ m ∈ marks, progressKey m.1 m.2.1 m.2.2 ≠ progressKey b c v) :
    is_verse_completed (runMarks p marks) b c v = is_verse_completed p b c v := by
  induction marks generalizing p with
  | nil => rfl
  | cons m t ih =>
    have step : runMarks p (m :: t) = runMarks (mark_verse_completed p m.1 m.2.1 m.2.2) t := by
      simp [runMarks]
    rw [step]
    rw [ih _ (fun x hx => h x (List.mem_cons_of_mem m hx))]
    simp [is_verse_completed, mark_verse_completed,
      alookup_dictInsert_ne _ _ _ _ (h m (List.mem_cons_self m t))]

/-- Claim C6, confirmed.  Starting from an empty ledger, after a run of
markDone calls whose ledger is flushed with save_progress and reloaded by a
fresh process with load_progress: every verse key that was marked done reads
back as done, and a key whose progress string was never marked reads back as
not done. -/
theorem progress_ledger_roundtrip (marks : List (String × Nat × Nat))
    (b : String) (c v : Nat) :
    ((b, c, v) ∈ marks →
        is_verse_completed (load_progress (save_progress (runMarks [] marks))) b c v = true) ∧
      ((∀ m ∈ marks, progressKey m.1 m.2.1 m.2.2 ≠ progressKey b c v) →
        is_verse_completed (load_progress (save_progress (runMarks [] marks))) b c v = false) := by
  constructor
  · intro h
    exact runMarks_of_mem marks [] b c v h
  · intro h
    rw [load_progress, save_progress, runMarks_of_no_key marks [] b c v h]
    rfl

/-- Witness for progress_ledger_roundtrip: after marking Tobit 1:1 and
flushing, a fresh load reports Tobit 1:1 done and Judith 1:2 not done. -/
theorem progress_ledger_roundtrip_witness :
    is_verse_completed (load_progress (save_progress (runMarks [] [("Tobit", 1, 1)])))
        "Tobit" 1 1 = true ∧
      is_verse_completed (load_progress (save_progress (runMarks [] [("Tobit", 1, 1)])))
        "Judith" 1 2 = false :=
  ⟨(progress_ledger_roundtrip [("Tobit", 1, 1)] "Tobit" 1 1).1 (by decide),
    (progress_ledger_roundtrip [("Tobit", 1, 1)] "Judith" 1 2).2 (by decide)⟩

/-! ## Corpus accumulator (bible_scraper.py, scrape_verse lines 396 to 409)

The nested mapping translation to book to chapter (string) to verse (string)
to text, built by the storage loop of scrape_verse for each extracted
translation. -/

/-- verse (string) to text. -/
abbrev VerseMap : Type := List (String × String)

/-- chapter (string) to verses. -/
abbrev ChapterMap : Type := List (String × VerseMap)

/-- book to chapters. -/
abbrev BookMap : Type := List (String × ChapterMap)

/-- translation code to books. -/
abbrev CorpusData : Type := List (String × BookMap)

/-- One iteration of the storage loop of scrape_verse: normalize the
translation name to upper case, restore spaces in the book name, initialize
each missing intermediate dict, and assign the verse text under the string
forms of chapter and verse. -/
def recordVerse (data : CorpusData) (translation_name book : String)
    (chapter verse : Nat) (text : String) : CorpusData :=
  dictUpdate data (upperStr translation_name) ([] : BookMap) (fun bm =>
    dictUpdate bm (replaceChar book '_' ' ') ([] : ChapterMap) (fun cm =>
      dictUpdate cm (Nat.repr chapter) ([] : VerseMap) (fun vm =>
        dictInsert vm (Nat.repr verse) text)))

/-- Lookup of one verse text through all four levels of the nested mapping. -/
def corpusLookup (data : CorpusData) (t b c v : String) : Option String :=
  (alookup data t).bind (fun bm =>
    (alookup bm b).bind (fun cm =>
      (alookup cm c).bind (fun vm => alookup vm v)))

/-- Claim C7, confirmed.  Recording a verse text creates any missing
intermediate levels on demand and stores the text under the normalized
four-part key, with an assignment that makes the last write win when the same
key is recorded more than once; every other entry of the nested mapping is
unchanged. -/
theorem record_verse_spec (data : CorpusData) (translation_name book : String)
    (chapter verse : Nat) (text : String) :
    (corpusLookup (recordVerse data translation_name book chapter verse text)
        (upperStr translation_name) (replaceChar book '_' ' ')
        (Nat.repr chapter) (Nat.repr verse) = some text) ∧
      (∀ t b c v : String,
        ¬(t = upperStr translation_name ∧ b = replaceChar book '_' ' ' ∧
            c = Nat.repr chapter ∧ v = Nat.repr verse) →
        corpusLookup (recordVerse data translation_name book chapter verse text) t b c v =
          corpusLookup data t b c v) := by
  constructor
  · simp [recordVerse, corpusLookup, alookup_dictUpdate_self, alookup_dictInsert_self]
  · intro t b c v hne
    by_cases ht : t = upperStr translation_name
    · subst ht
      by_cases hb : b = replaceChar book '_' ' '
      · subst hb
        by_cases hc : c = Nat.repr chapter
        · subst hc
          by_cases hv : v = Nat.repr verse
          · exact absurd ⟨rfl, rfl, rfl, hv⟩ hne
          · simp only [recordVerse, corpusLookup, alookup_dictUpdate_self, Option.bind_some,
              Option.some_bind]
            rw [alookup_dictInsert_ne _ _ _ _ (fun h => hv h.symm)]
            cases hdata : alookup data (upperStr translation_name) with
            | none => simp [hdata, alookup]
            | some bm =>
              cases hbm : alookup bm (replaceChar book '_' ' ') with
              | none => simp [hdata, hbm, alookup]
              | some cm =>
                cases hcm : alookup cm (Nat.repr chapter) with
                | none => simp [hdata, hbm, hcm, alookup]
                | some vm => simp [hdata, hbm, hcm]
        · simp only [recordVerse, corpusLookup, alookup_dictUpdate_self, Option.some_bind]
          rw [alookup_dictUpdate_ne _ _ _ _ _ (fun h => hc h.symm)]
          cases hdata : alookup data (upperStr translation_name) with
          | none => simp [hdata, alookup]
          | some bm =>
            cases hbm : alookup bm (replaceChar book '_' ' ') with
            | none => simp [hdata, hbm, alookup]
            | some cm => simp [hdata, hbm]
      · simp only [recordVerse, corpusLookup, alookup_dictUpdate_self, Option.some_bind]
        rw [alookup_dictUpdate_ne _ _ _ _ _ (fun h => hb h.symm)]
        cases hdata : alookup data (upperStr translation_name) with
        | none => simp [hdata, alookup]
        | some bm => simp [hdata]
    · simp only [recordVerse, corpusLookup]
      rw [alookup_dictUpdate_ne _ _ _ _ _ (fun h => ht h.symm)]

/-- Witness for record_verse_spec: starting from the empty corpus, recording
kjv / 1 Esdras 1:1 twice leaves the last text at the normalized key (last
write wins, with intermediate levels created on demand), and a different
verse key of the same book is untouched. -/
theorem record_verse_spec_witness :
    corpusLookup
        (recordVerse (recordVerse [] "kjv" "1 Esdras" 1 1 "first text")
          "kjv" "1 Esdras" 1 1 "second text")
        "KJV" "1 Esdras" "1" "1" = some "second text" ∧
      corpusLookup (recordVerse [] "kjv" "1 Esdras" 1 1 "first text") "KJV" "1 Esdras" "1" "2" =
        corpusLookup [] "KJV" "1 Esdras" "1" "2" :=
  ⟨by
      have h := (record_verse_spec (recordVerse [] "kjv" "1 Esdras" 1 1 "first text")
        "kjv" "1 Esdras" 1 1 "second text").1
      simpa using h,
    (record_verse_spec [] "kjv" "1 Esdras" 1 1 "first text").2 "KJV" "1 Esdras" "1" "2"
      (by decide)⟩

/-! ## Locale bucketing (organize_versions_by_locale.py, detect_locale_from_name
lines 35 to 140) -/

/-- The apostrophe character, written by code point. -/
def apostrophe : String := String.mk [Char.ofNat 39]

/-- The search term spelled young-apostrophe-s in the source. -/
def youngsPat : String := "young" ++ apostrophe ++ "s"

/-- The search term spelled god-apostrophe-s-space-word in the source. -/
def godsWordPat : String := "god" ++ apostrophe ++ "s word"

/-- detect_locale_from_name: lower-case the version name, then walk the
cascade of substring tests in source order; the first test that matches
decides the locale and the default is und. -/
def detect_locale_from_name (version_name : String) : String :=
  let name := lowerStr version_name
  if containsSub name "spanish" || containsSub name "reina valera" ||
      (containsSub name "biblia" && !containsSub name "portugu") ||
      containsSub name "sagradas escrituras" then "es"
  else if containsSub name "portuge" || containsSub name "portugu" then "pt"
  else if containsSub name "german" || containsSub name "luther" ||
      containsSub name "deutsch" then "de"
  else if containsSub name "french" || containsSub name "louis segond" ||
      containsSub name "martin (1744)" then "fr"
  else if containsSub name "italian" || containsSub name "giovanni diodati" ||
      containsSub name "riveduta" then "it"
  else if containsSub name "dutch" || containsSub name "staten vertaling" then "nl"
  else if containsSub name "swedish" then "sv"
  else if containsSub name "norwegian" then "no"
  else if containsSub name "danish" then "da"
  else if containsSub name "afrikaans" then "af"
  else if containsSub name "albanian" then "sq"
  else if containsSub name "basque" then "eu"
  else if containsSub name "bavarian" then "bar"
  else if containsSub name "armenian" then "hy"
  else if containsSub name "turkish" then "tr"
  else if containsSub name "finnish" then "fi"
  else if containsSub name "latvian" then "lv"
  else if containsSub name "lithuanian" then "lt"
  else if containsSub name "hungarian" || containsSub name "karoli" then "hu"
  else if containsSub name "romanian" then "ro"
  else if containsSub name "croatian" then "hr"
  else if containsSub name "czech" || containsSub name "bkr" then "cs"
  else if containsSub name "bulgarian" then "bg"
  else if containsSub name "maori" then "mi"
  else if containsSub name "swahili" then "sw"
  else if containsSub name "esperanto" then "eo"
  else if containsSub name "indonesian" then "id"
  else if containsSub name "vietnamese" then "vi"
  else if containsSub name "thai" then "th"
  else if containsSub name "korean" then "ko"
  else if containsSub name "chinese" || containsSub name "中文" ||
      containsSub name "æœ¬" then "zh"
  else if containsSub name "arabic" || containsSub name "arab" then "ar"
  else if containsSub name "russian" || containsSub name "koi8r" then "ru"
  else if containsSub name "ukrainian" then "uk"
  else if containsSub name "greek" || containsSub name "septuagint" ||
      containsSub name "textus receptus" || containsSub name "byzantine" ||
      containsSub name "tischendorf" || containsSub name "westcott" then "el"
  else if containsSub name "hebrew" || containsSub name "westminster leningrad codex" ||
      containsSub name "wlc" || containsSub name "aleppo" then "he"
  else if containsSub name "latin" || containsSub name "vulgata" then "la"
  else if containsSub name "english" || containsSub name "kjv" ||
      containsSub name "king james" || containsSub name "niv" ||
      containsSub name "nasb" || containsSub name "american standard" ||
      containsSub name "bible" || containsSub name "testament" ||
      containsSub name "webster" || containsSub name "weymouth" ||
      containsSub name youngsPat || containsSub name "jubilee" ||
      containsSub name "international version" ||
      containsSub name "international standard version" ||
      containsSub name "living translation" || containsSub name godsWordPat then "en"
  else "und"

/-- One rule of the cascade: a boolean test over the lower-cased name, and the
locale it assigns. -/
structure LocaleRule where
  cond : String → Bool
  loc : String

/-- The cascade of detect_locale_from_name as an explicit ordered rule table,
one entry per if branch, in source order. -/
def localeRules : List LocaleRule :=
  [⟨fun name => containsSub name "spanish" || containsSub name "reina valera" ||
      (containsSub name "biblia" && !containsSub name "portugu") ||
      containsSub name "sagradas escrituras", "es"⟩,
   ⟨fun name => containsSub name "portuge" || containsSub name "portugu", "pt"⟩,
   ⟨fun name => containsSub name "german" || containsSub name "luther" ||
      containsSub name "deutsch", "de"⟩,
   ⟨fun name => containsSub name "french" || containsSub name "louis segond" ||
      containsSub name "martin (1744)", "fr"⟩,
   ⟨fun name => containsSub name "italian" || containsSub name "giovanni diodati" ||
      containsSub name "riveduta", "it"⟩,
   ⟨fun name => containsSub name "dutch" || containsSub name "staten vertaling", "nl"⟩,
   ⟨fun name => containsSub name "swedish", "sv"⟩,
   ⟨fun name => containsSub name "norwegian", "no"⟩,
   ⟨fun name => containsSub name "danish", "da"⟩,
   ⟨fun name => containsSub name "afrikaans", "af"⟩,
   ⟨fun name => containsSub name "albanian", "sq"⟩,
   ⟨fun name => containsSub name "basque", "eu"⟩,
   ⟨fun name => containsSub name "bavarian", "bar"⟩,
   ⟨fun name => containsSub name "armenian", "hy"⟩,
   ⟨fun name => containsSub name "turkish", "tr"⟩,
   ⟨fun name => containsSub name "finnish", "fi"⟩,
   ⟨fun name => containsSub name "latvian", "lv"⟩,
   ⟨fun name => containsSub name "lithuanian", "lt"⟩,
   ⟨fun name => containsSub name "hungarian" || containsSub name "karoli", "hu"⟩,
   ⟨fun name => containsSub name "romanian", "ro"⟩,
   ⟨fun name => containsSub name "croatian", "hr"⟩,
   ⟨fun name => containsSub name "czech" || containsSub name "bkr", "cs"⟩,
   ⟨fun name => containsSub name "bulgarian", "bg"⟩,
   ⟨fun name => containsSub name "maori", "mi"⟩,
   ⟨fun name => containsSub name "swahili", "sw"⟩,
   ⟨fun name => containsSub name "esperanto", "eo"⟩,
   ⟨fun name => containsSub name "indonesian", "id"⟩,
   ⟨fun name => containsSub name "vietnamese", "vi"⟩,
   ⟨fun name => containsSub name "thai", "th"⟩,
   ⟨fun name => containsSub name "korean", "ko"⟩,
   ⟨fun name => containsSub name "chinese" || containsSub name "中文" ||
      containsSub name "æœ¬", "zh"⟩,
   ⟨fun name => containsSub name "arabic" || containsSub name "arab", "ar"⟩,
   ⟨fun name => containsSub name "russian" || containsSub name "koi8r", "ru"⟩,
   ⟨fun name => containsSub name "ukrainian", "uk"⟩,
   ⟨fun name => containsSub name "greek" || containsSub name "septuagint" ||
      containsSub name "textus receptus" || containsSub name "byzantine" ||
      containsSub name "tischendorf" || containsSub name "westcott", "el"⟩,
   ⟨fun name => containsSub name "hebrew" || containsSub name "westminster leningrad codex" ||
      containsSub name "wlc" || containsSub name "aleppo", "he"⟩,
   ⟨fun name => containsSub name "latin" || containsSub name "vulgata", "la"⟩,
   ⟨fun name => containsSub name "english" || containsSub name "kjv" ||
      containsSub name "king james" || containsSub name "niv" ||
      containsSub name "nasb" || containsSub name "american standard" ||
      containsSub name "bible" || containsSub name "testament" ||
      containsSub name "webster" || containsSub name "weymouth" ||
      containsSub name youngsPat || containsSub name "jubilee" ||
      containsSub name "international version" ||
      containsSub name "international standard version" ||
      containsSub name "living translation" || containsSub name godsWordPat, "en"⟩]

/-- First-match-wins evaluation of an ordered rule table, defaulting to und. -/
def firstMatchingLocale : List LocaleRule → String → String
  | [], _ => "und"
  | r :: rs, name => if r.cond name then r.loc else firstMatchingLocale rs name

theorem detect_locale_eq_firstMatch (s : String) :
    detect_locale_from_name s = firstMatchingLocale localeRules (lowerStr s) := rfl

theorem firstMatch_of_no_rule (rs : List LocaleRule) (name : String)
    (h : ∀ r ∈ rs, r.cond name = false) : firstMatchingLocale rs name = "und" := by
  induction rs with
  | nil => rfl
  | cons r t ih =>
    have hr : r.cond name = false := h r (List.mem_cons_self r t)
    simp [firstMatchingLocale, hr]
    exact ih (fun x hx => h x (List.mem_cons_of_mem r hx))

/-- Claim C8, confirmed.  Classification applies the ordered rule table of
substring tests with first match winning and default bucket und; the name
REINA VALERA 1909 is classified to es, the name NEW INTERNATIONAL VERSION is
classified to en, and a name matching no rule is classified to und. -/
theorem locale_bucketing_spec :
    (∀ s : String, detect_locale_from_name s = firstMatchingLocale localeRules (lowerStr s)) ∧
      detect_locale_from_name "REINA VALERA 1909" = "es" ∧
      detect_locale_from_name "NEW INTERNATIONAL VERSION" = "en" ∧
      (∀ s : String, (∀ r ∈ localeRules, r.cond (lowerStr s) = false) →
        detect_locale_from_name s = "und") := by
  refine ⟨detect_locale_eq_firstMatch, by decide, by decide, ?_⟩
  intro s h
  rw [detect_locale_eq_firstMatch]
  exact firstMatch_of_no_rule localeRules (lowerStr s) h

/-- Witness for locale_bucketing_spec: the digit-only name 12345 matches no
rule and lands in und. -/
theorem locale_bucketing_spec_witness :
    detect_locale_from_name "12345" = "und" :=
  locale_bucketing_spec.2.2.2 "12345" (by decide)

/-! ## Book-name localization (apply_book_name_mapping.py,
apply_mapping_to_version_file lines 56 to 111)

The per-version corpus is the top-level JSON object book to chapters; the
book map is the entry of the mapping file for this version.  The embedding
covers the rebuild loop over data.items() (lines 81 to 98): compute the
target key of each book, and assign or merge into new_data. -/

/-- Target key of one top-level book: the localized name when the map has a
truthy (non-empty) entry, the original name otherwise.  This follows the
Python truthiness test if local_book: at line 87, under which an empty-string
localized name leaves the key unchanged. -/
def targetName (book_map : List (String × String)) (b : String) : String :=
  match alookup book_map b with
  | some s => if s ≠ "" then s else b
  | none => b

/-- One iteration of the rebuild loop on an already-renamed pair: when the
target key is already present, merge the chapter maps with dict.update (later
overriding earlier on shared chapter keys); otherwise append the new entry. -/
def insertMergeStep {β : Type} (nd : List (String × List (String × β)))
    (p : String × List (String × β)) : List (String × List (String × β)) :=
  match alookup nd p.1 with
  | some old => dictInsert nd p.1 (dictUpdateAll old p.2)
  | none => nd ++ [(p.1, p.2)]

/-- The whole rebuild loop of apply_mapping_to_version_file over the
top-level items of a version corpus. -/
def apply_mapping_core {β : Type} (book_map : List (String × String))
    (data : List (String × List (String × β))) : List (String × List (String × β)) :=
  data.foldl (fun nd p => insertMergeStep nd (targetName book_map p.1, p.2)) []

/-- Merging a head chapter map with a list of later chapter maps, later maps
overriding on shared keys. -/
def mergeOccs {β : Type} (c : List (String × β)) (cs : List (List (String × β))) :
    List (String × β) :=
  cs.foldl dictUpdateAll c

theorem alookup_insertMergeStep_self {β : Type} (nd : List (String × List (String × β)))
    (p : String × List (String × β)) :
    alookup (insertMergeStep nd p) p.1 =
      some (match alookup nd p.1 with
            | some old => dictUpdateAll old p.2
            | none => p.2) := by
  unfold insertMergeStep
  cases h : alookup nd p.1 with
  | some old => simp [h, alookup_dictInsert_self]
  | none =>
    rw [alookup_append, h]
    simp [alookup]

theorem alookup_insertMergeStep_ne {β : Type} (nd : List (String × List (String × β)))
    (p : String × List (String × β)) (q : String) (h : p.1 ≠ q) :
    alookup (insertMergeStep nd p) q = alookup nd q := by
  unfold insertMergeStep
  cases hl : alookup nd p.1 with
  | some old => rw [alookup_dictInsert_ne _ _ _ _ h]
  | none =>
    rw [alookup_append]
    cases hq : alookup nd q <;> simp [alookup, h]

theorem alookup_foldl_insertMerge {β : Type} (l : List (String × List (String × β)))
    (nd : List (String × List (String × β))) (t : String) :
    alookup (l.foldl insertMergeStep nd) t =
      match alookup nd t with
      | some c => some (mergeOccs c ((l.filter (fun p => p.1 = t)).map Prod.snd))
      | none =>
        match (l.filter (fun p => p.1 = t)).map Prod.snd with
        | [] => none
        | c :: cs => some (mergeOccs c cs) := by
  induction l generalizing nd with
  | nil =>
    cases h : alookup nd t <;> simp [h, mergeOccs]
  | cons p rest ih =>
    have step : ((p :: rest).foldl insertMergeStep nd) = rest.foldl insertMergeStep (insertMergeStep nd p) := by
      simp
    rw [step, ih]
    by_cases hk : p.1 = t
    · have hself := alookup_insertMergeStep_self nd p
      rw [hk] at hself
      cases h : alookup nd t with
      | some c =>
        rw [h] at hself
        rw [hself]
        simp [List.filter_cons, hk, mergeOccs]
      | none =>
        rw [h] at hself
        rw [hself]
        simp [List.filter_cons, hk]
    · have hne := alookup_insertMergeStep_ne nd p t hk
      rw [hne]
      simp [List.filter_cons, hk]

/-- Claim C9, amended, confirmed as amended.  Renaming: a top-level book key
with a non-empty entry in the map goes to its localized name, and a key with
no entry (or, after the counterexample below, an empty entry) is kept.  The
result of the rebuild loop is characterized at every target key t: the
chapter maps of all source books renamed to t are merged left to right, the
later source overriding the earlier; a key no source maps to is absent.  The
merge of two chapter maps resolves each shared chapter key to the later
map's value. -/
theorem apply_book_mapping_spec {β : Type} (book_map : List (String × String))
    (data : List (String × List (String × β))) :
    (∀ b : String, alookup book_map b = none → targetName book_map b = b) ∧
      (∀ b s : String, alookup book_map b = some s → s ≠ "" → targetName book_map b = s) ∧
      (∀ t : String,
        alookup (apply_mapping_core book_map data) t =
          match (((data.map (fun p => (targetName book_map p.1, p.2))).filter
              (fun p => p.1 = t)).map Prod.snd) with
          | [] => none
          | c :: cs => some (mergeOccs c cs)) ∧
      (∀ old new : List (String × β), ∀ k : String,
        alookup (dictUpdateAll old new) k =
          match alookupLast new k with
          | some v => some v
          | none => alookup old k) := by
  refine ⟨?_, ?_, ?_, ?_⟩
  · intro b h
    simp [targetName, h]
  · intro b s h hs
    simp [targetName, h, hs]
  · intro t
    have hcore : apply_mapping_core book_map data =
        (data.map (fun p => (targetName book_map p.1, p.2))).foldl insertMergeStep [] := by
      rw [List.foldl_map]
      rfl
    rw [hcore, alookup_foldl_insertMerge]
    simp [alookup]
  · intro old new k
    exact alookup_dictUpdateAll old new k

/-- Witness for apply_book_mapping_spec, at a concrete corpus with a renamed
book, a kept book, and a collision merged with the later chapters overriding:
Exodus is renamed to Eksodus and collides with an existing Eksodus entry. -/
theorem apply_book_mapping_spec_witness :
    targetName [("Exodus", "Eksodus")] "Genesis" = "Genesis" ∧
      targetName [("Exodus", "Eksodus")] "Exodus" = "Eksodus" ∧
      alookup (apply_mapping_core [("Exodus", "Eksodus")]
          ([("Eksodus", [("1", "a")]), ("Exodus", [("1", "b"), ("2", "c")])] :
            List (String × List (String × String)))) "Eksodus" =
        some [("1", "b"), ("2", "c")] ∧
      alookup (dictUpdateAll ([("1", "a")] : List (String × String)) [("1", "b"), ("2", "c")])
          "1" = some "b" := by
  have h := apply_book_mapping_spec ([("Exodus", "Eksodus")])
    ([("Eksodus", [("1", "a")]), ("Exodus", [("1", "b"), ("2", "c")])] :
      List (String × List (String × String)))
  refine ⟨h.1 "Genesis" (by decide), h.2.1 "Exodus" "Eksodus" (by decide) (by decide), ?_, ?_⟩
  · rw [h.2.2.1 "Eksodus"]
    decide
  · rw [h.2.2.2 [("1", "a")] [("1", "b"), ("2", "c")] "1"]
    decide

/-- Claim C9, counterexample.  The claim states that every top-level book key
with an entry in the map is renamed to its localized name.  The code applies
the Python truthiness test if local_book: (line 87), so a key whose entry is
the empty string is kept unchanged instead of being renamed to the empty
string: with map Genesis to empty and corpus containing Genesis, the result
still has key Genesis. -/
theorem apply_book_mapping_counterexample :
    alookup [("Genesis", "")] "Genesis" = some "" ∧
      ("Genesis" : String) ≠ "" ∧
      apply_mapping_core [("Genesis", "")]
          ([("Genesis", [("1", "x")])] : List (String × List (String × String))) =
        [("Genesis", [("1", "x")])] := by
  refine ⟨by decide, by decide, by decide⟩

/-! ## Locale bucketing file moves (organize_versions_by_locale.py,
organize_versions lines 143 to 186)

The source directory is a list of files (name and content); the target tree
is a map from (locale, filename) to content.  The loop walks the version
files of the source (the code sorts them first; the properties below hold for
any processing order), computes each target path, skips the move when the
target file already exists, and otherwise moves the file. -/

/-- One file of the source directory. -/
structure FileEntry where
  name : String
  content : String
deriving DecidableEq

/-- The filter of lines 154 to 157: keep .json and .json.gz files. -/
def isVersionFile (n : String) : Bool := endsWithStr n ".json" || endsWithStr n ".json.gz"

/-- The version-name stem of lines 162 to 168: strip .json.gz, else strip
.json, else the path stem. -/
def versionNameOf (n : String) : String :=
  if endsWithStr n ".json.gz" then dropRightStr n 8
  else if endsWithStr n ".json" then dropRightStr n 5
  else stemOf n

/-- Target path of a source file: the locale folder of its detected locale,
same filename. -/
def targetKeyOf (n : String) : String × String :=
  (detect_locale_from_name (versionNameOf n), n)

/-- The target directory tree as a finite map from (locale, filename) to file
content. -/
abbrev TargetDir : Type := List ((String × String) × String)

/-- One loop iteration of organize_versions (lines 161 to 184): when the
target file exists the move is skipped and the state unchanged; otherwise
shutil.move removes the file from the source directory and creates the target
file with the moved content. -/
def organizeStep (st : List FileEntry × TargetDir) (f : FileEntry) :
    List FileEntry × TargetDir :=
  match alookup st.2 (targetKeyOf f.name) with
  | some _ => st
  | none =>
    (st.1.filter (fun g => g.name ≠ f.name), st.2 ++ [(targetKeyOf f.name, f.content)])

/-- organize_versions: fold the move loop over the version files of the
source directory, starting from the initial source listing and target tree. -/
def organize_versions (srcFiles : List FileEntry) (tgt : TargetDir) :
    List FileEntry × TargetDir :=
  (srcFiles.filter (fun f => isVersionFile f.name)).foldl organizeStep (srcFiles, tgt)

theorem organize_fold_preserves (l : List FileEntry) (st : List FileEntry × TargetDir)
    (k : String × String) (hv : (alookup st.2 k).isSome) :
    alookup (l.foldl organizeStep st).2 k = alookup st.2 k := by
  induction l generalizing st with
  | nil => rfl
  | cons f rest ih =>
    rw [List.foldl_cons]
    cases hstep : alookup st.2 (targetKeyOf f.name) with
    | some c =>
      have hid : organizeStep st f = st := by
        simp [organizeStep, hstep]
      rw [hid]
      exact ih st hv
    | none =>
      have heq : alookup (organizeStep st f).2 k = alookup st.2 k := by
        simp only [organizeStep, hstep]
        rw [alookup_append]
        cases hq : alookup st.2 k with
        | some v => simp
        | none => rw [hq] at hv; simp at hv
      have hv2 : (alookup (organizeStep st f).2 k).isSome := by
        rw [heq]; exact hv
      rw [ih _ hv2, heq]

theorem organize_fold_keeps_file (l : List FileEntry) (st : List FileEntry × TargetDir)
    (f : FileEntry) (hf : f ∈ st.1)
    (hcol : (alookup st.2 (targetKeyOf f.name)).isSome)
    (hl : ∀ g ∈ l, g.name = f.name → g = f) :
    f ∈ (l.foldl organizeStep st).1 := by
  induction l generalizing st with
  | nil => exact hf
  | cons g rest ih =>
    rw [List.foldl_cons]
    cases hstep : alookup st.2 (targetKeyOf g.name) with
    | some c =>
      have hid : organizeStep st g = st := by
        simp [organizeStep, hstep]
      rw [hid]
      exact ih st hf hcol (fun x hx => hl x (List.mem_cons_of_mem g hx))
    | none =>
      have hgf : g.name ≠ f.name := by
        intro hname
        have : g = f := hl g (List.mem_cons_self g rest) hname
        subst this
        rw [hstep] at hcol
        simp at hcol
      have hf2 : f ∈ (organizeStep st g).1 := by
        simp only [organizeStep, hstep]
        refine List.mem_filter.mpr ⟨hf, ?_⟩
        simp only [ne_eq, decide_eq_true_eq]
        exact fun h => hgf h.symm
      have hcol2 : (alookup (organizeStep st g).2 (targetKeyOf f.name)).isSome := by
        simp only [organizeStep, hstep]
        rw [alookup_append]
        cases hq : alookup st.2 (targetKeyOf f.name) with
        | some v => simp
        | none => rw [hq] at hcol; simp at hcol
      exact ih _ hf2 hcol2 (fun x hx => hl x (List.mem_cons_of_mem g hx))

/-- Claim C10, confirmed.  The file-moving loop never overwrites an existing
target file: every (locale, filename) entry present in the target tree before
the run holds the same content afterwards, and a source file whose target
path already exists is skipped, remaining in the source directory.  The
source listing carries no duplicate filenames (it lists one directory). -/
theorem organize_versions_no_overwrite (srcFiles : List FileEntry) (tgt : TargetDir)
    (hnodup : (srcFiles.map FileEntry.name).Nodup) :
    (∀ k : String × String, (alookup tgt k).isSome →
        alookup (organize_versions srcFiles tgt).2 k = alookup tgt k) ∧
      (∀ f ∈ srcFiles, (alookup tgt (targetKeyOf f.name)).isSome →
        f ∈ (organize_versions srcFiles tgt).1) := by
  constructor
  · intro k hk
    exact organize_fold_preserves _ (srcFiles, tgt) k hk
  · intro f hf hcol
    apply organize_fold_keeps_file _ (srcFiles, tgt) f hf hcol
    intro g hg hname
    exact List.inj_on_of_nodup_map hnodup (List.mem_of_mem_filter hg) hf hname

/-- Witness for organize_versions_no_overwrite: with A.json already present
under its target locale folder, the run leaves the old target content in
place and the source file where it was. -/
theorem organize_versions_no_overwrite_witness :
    alookup (organize_versions [⟨"A.json", "new"⟩]
        [(("und", "A.json"), "old")]).2 ("und", "A.json") = some "old" ∧
      (⟨"A.json", "new"⟩ : FileEntry) ∈
        (organize_versions [⟨"A.json", "new"⟩] [(("und", "A.json"), "old")]).1 := by
  have h := organize_versions_no_overwrite [⟨"A.json", "new"⟩]
    [(("und", "A.json"), "old")] (by decide)
  constructor
  · rw [h.1 ("und", "A.json") (by decide)]
    decide
  · exact h.2 ⟨"A.json", "new"⟩ (by decide) (by decide)

/-! ## Full fetch_page and the scrape_verse candidate policy
(bible_scraper.py, fetch_page lines 164 to 225 and scrape_verse lines 353 to
393)

The network is a map from URL to the final outcome of the retry loop (the
Option value of fetchWithRetries: some body on a 200, none on a 404 or
exhausted retries).  The page parser is passed in as a function from raw html
to the translation mapping, standing for parse_verse_page composed with the
html5lib parse. -/

/-- Source tag of a URL, fetch_page lines 166 to 171. -/
def sourceOf (url : String) : String :=
  if containsSub url "/catholic/" then "catholic"
  else if containsSub url "/apocrypha/" then "apocrypha"
  else "unknown"

/-- fetch_page: the cache file key uses the book with spaces replaced by
underscores, the source tag of the URL, and the chapter and verse arguments
of the call (not the chapter of the URL).  The cache is read first; on a
miss, unless skip_fetch, the network is consulted and a successful fetch is
written back to the cache file.  Returns the Optional html and the cache
state after the call. -/
def fetch_page (cache : CacheStore) (net : String → Option String)
    (url book : String) (chapter verse : Nat) (skip_fetch : Bool) :
    Option String × CacheStore :=
  let key : CacheKey := ⟨replaceChar book ' ' '_', sourceOf url, chapter, verse⟩
  match cacheGet cache key with
  | some content => (some content, cache)
  | none =>
    if skip_fetch then (none, cache)
    else
      match net url with
      | some body => (some body, cachePut cache key body)
      | none => (none, cache)

/-- Phase 1 body of scrape_verse (lines 365 to 372): consult the cache only
(skip_fetch true); a truthy page whose parse is non-empty is merged into the
accumulated translations and sets the found flag. -/
def scrapePhase1Step (cache : CacheStore) (net : String → Option String)
    (parse : String → VerseMap) (book : String) (chapter verse : Nat)
    (acc : VerseMap × Bool) (url : String) : VerseMap × Bool :=
  match (fetch_page cache net url book chapter verse true).1 with
  | some content =>
    if content ≠ "" then
      if parse content ≠ [] then (dictUpdateAll acc.1 (parse content), true) else acc
    else acc
  | none => acc

/-- The same phase-1 step with the network argument erased: with skip_fetch
true, fetch_page is exactly a cache read. -/
def cacheScanStep (cache : CacheStore) (parse : String → VerseMap) (book : String)
    (chapter verse : Nat) (acc : VerseMap × Bool) (url : String) : VerseMap × Bool :=
  match cacheGet cache ⟨replaceChar book ' ' '_', sourceOf url, chapter, verse⟩ with
  | some content =>
    if content ≠ "" then
      if parse content ≠ [] then (dictUpdateAll acc.1 (parse content), true) else acc
    else acc
  | none => acc

/-- Phase 2 of scrape_verse (lines 375 to 389): walk the candidates in order
with skip_fetch false (so each candidate is still served from cache when its
cache file is valid, and only otherwise fetched from the network); stop at
the first candidate whose page yields a non-empty translation mapping. -/
def scrapePhase2 (net : String → Option String) (parse : String → VerseMap)
    (book : String) (chapter verse : Nat) :
    CacheStore → VerseMap → List String → Bool × VerseMap × CacheStore
  | cache, acc, [] => (false, acc, cache)
  | cache, acc, url :: rest =>
    let r := fetch_page cache net url book chapter verse false
    match r.1 with
    | none => scrapePhase2 net parse book chapter verse r.2 acc rest
    | some content =>
      if content = "" then scrapePhase2 net parse book chapter verse r.2 acc rest
      else
        if parse content ≠ [] then (true, dictUpdateAll acc (parse content), r.2)
        else scrapePhase2 net parse book chapter verse r.2 acc rest

/-- scrape_verse, lines 353 to 393: the completed gate, then phase 1 over all
candidate URLs with the network disabled, then, when phase 1 found nothing,
phase 2 over the same candidates.  Result: the found flag (the Python return
value), the accumulated translations handed to the storage loop, and the
cache state. -/
def scrape_verse (progress : ProgressMap) (cache : CacheStore)
    (net : String → Option String) (parse : String → VerseMap)
    (book : String) (chapter verse : Nat) : Bool × VerseMap × CacheStore :=
  if is_verse_completed progress book chapter verse then (true, [], cache)
  else
    let urls := build_urls book chapter verse
    let p1 := urls.foldl (scrapePhase1Step cache net parse book chapter verse) ([], false)
    if p1.2 then (true, p1.1, cache)
    else scrapePhase2 net parse book chapter verse cache p1.1 urls

/-- The fall-through pass exactly as claim C1 words it: each candidate is
fetched from the network, in listed order, stopping at the first candidate
whose fetched page yields a non-empty translation mapping. -/
def netOnlyPhase (net : String → Option String) (parse : String → VerseMap) :
    VerseMap → List String → Bool × VerseMap
  | acc, [] => (false, acc)
  | acc, url :: rest =>
    match net url with
    | none => netOnlyPhase net parse acc rest
    | some content =>
      if content = "" then netOnlyPhase net parse acc rest
      else
        if parse content ≠ [] then (true, dictUpdateAll acc (parse content))
        else netOnlyPhase net parse acc rest

/-- scrape_verse as claim C1 describes it: cache-only pass over all
candidates, and on a full miss the network pass over the candidates in
listed order. -/
def scrapeVerseClaim (progress : ProgressMap) (cache : CacheStore)
    (net : String → Option String) (parse : String → VerseMap)
    (book : String) (chapter verse : Nat) : Bool × VerseMap :=
  if is_verse_completed progress book chapter verse then (true, [])
  else
    let urls := build_urls book chapter verse
    let p1 := urls.foldl (cacheScanStep cache parse book chapter verse) ([], false)
    if p1.2 then (true, p1.1)
    else netOnlyPhase net parse p1.1 urls

theorem scrapePhase1Step_eq_cacheScanStep (cache : CacheStore)
    (net : String → Option String) (parse : String → VerseMap) (book : String)
    (chapter verse : Nat) :
    scrapePhase1Step cache net parse book chapter verse =
      cacheScanStep cache parse book chapter verse := by
  funext acc url
  unfold scrapePhase1Step cacheScanStep fetch_page
  cases h : cacheGet cache ⟨replaceChar book ' ' '_', sourceOf url, chapter, verse⟩ <;>
    simp [h]

/-- A 120-byte page that the parser of the counterexample maps to the empty
translation mapping. -/
def emptyParsePage : String := String.mk (List.replicate 120 'e')

/-- A 120-byte page that the parser of the counterexample maps to a non-empty
translation mapping. -/
def goodPage : String := String.mk (List.replicate 120 'g')

/-- Counterexample cache: the catholic cache file of Tobit 2:3 holds a valid
(big, non-blank) page that parses to no translations. -/
def cexCache : CacheStore := fun k =>
  if k = ⟨"Tobit", "catholic", 2, 3⟩ then some emptyParsePage else none

/-- Counterexample network: the catholic URL of Tobit 2:3 serves a page that
parses to a translation. -/
def cexNet : String → Option String := fun url =>
  if url = verseUrl "catholic" (bookSlug "Tobit") 2 3 then some goodPage else none

/-- Counterexample parser. -/
def cexParse : String → VerseMap := fun s =>
  if s = goodPage then [("KJV", "text")] else []

/-- Claim C1, counterexample.  In the fall-through pass the code calls
fetch_page with the network enabled, and fetch_page still reads the cache
first: a candidate whose cache file is valid but parses to no translations is
answered from the cache again, and its network page (which would parse to a
translation) is never fetched.  The claim as stated says the fall-through
fetches the candidates from the network and stops at the first success, which
on this world would succeed; the code returns failure. -/
theorem scrape_verse_policy_counterexample :
    (scrape_verse [] cexCache cexNet cexParse "Tobit" 2 3).1 = false ∧
      (scrapeVerseClaim [] cexCache cexNet cexParse "Tobit" 2 3).1 = true := by
  constructor
  · decide
  · decide

/-- Claim C1, amended.  scrape_verse first consults the disk cache for every
candidate URL (chapter aliases crossed with both source paths) with network
access disabled; when some cached candidate yields a non-empty translation
mapping, the result does not depend on the network at all and the cache is
unchanged; only when no cached candidate yields a non-empty mapping does it
walk the candidates in listed order through the cache-first fetch_page (a
candidate with a valid cache file is served from cache, the rest from the
network), stopping at the first candidate whose page yields a non-empty
translation mapping. -/
theorem scrape_verse_cache_first_policy (progress : ProgressMap) (cache : CacheStore)
    (net netB : String → Option String) (parse : String → VerseMap)
    (book : String) (chapter verse : Nat) :
    (((build_urls book chapter verse).foldl
          (cacheScanStep cache parse book chapter verse) ([], false)).2 = true →
        scrape_verse progress cache net parse book chapter verse =
          scrape_verse progress cache netB parse book chapter verse ∧
          (is_verse_completed progress book chapter verse = false →
            scrape_verse progress cache net parse book chapter verse =
              (true, ((build_urls book chapter verse).foldl
                (cacheScanStep cache parse book chapter verse) ([], false)).1, cache))) ∧
      (is_verse_completed progress book chapter verse = false →
        ((build_urls book chapter verse).foldl
            (cacheScanStep cache parse book chapter verse) ([], false)).2 = false →
        scrape_verse progress cache net parse book chapter verse =
          scrapePhase2 net parse book chapter verse cache
            ((build_urls book chapter verse).foldl
              (cacheScanStep cache parse book chapter verse) ([], false)).1
            (build_urls book chapter verse)) := by
  constructor
  · intro hfound
    cases hdone : is_verse_completed progress book chapter verse with
    | true =>
      constructor
      · unfold scrape_verse
        rw [hdone]
        simp
      · intro hfalse
        exact absurd hfalse (by decide)
    | false =>
      constructor
      · unfold scrape_verse
        rw [hdone]
        simp only [Bool.false_eq_true, if_false]
        rw [scrapePhase1Step_eq_cacheScanStep cache net parse book chapter verse,
          scrapePhase1Step_eq_cacheScanStep cache netB parse book chapter verse,
          hfound]
        simp
      · intro _
        unfold scrape_verse
        rw [hdone]
        simp only [Bool.false_eq_true, if_false]
        rw [scrapePhase1Step_eq_cacheScanStep cache net parse book chapter verse, hfound]
        simp
  · intro hdone hmiss
    unfold scrape_verse
    rw [hdone]
    simp only [Bool.false_eq_true, if_false]
    rw [scrapePhase1Step_eq_cacheScanStep cache net parse book chapter verse, hmiss]
    simp

/-- Witness for scrape_verse_cache_first_policy: with a good page cached for
the catholic source of Tobit 2:3, the outcome ignores the network (two
different networks give equal results); with nothing useful cached, the run
equals the cache-first fall-through pass. -/
theorem scrape_verse_cache_first_policy_witness :
    (scrape_verse [] (fun k => if k = ⟨"Tobit", "catholic", 2, 3⟩ then some goodPage else none)
        cexNet cexParse "Tobit" 2 3 =
      scrape_verse [] (fun k => if k = ⟨"Tobit", "catholic", 2, 3⟩ then some goodPage else none)
        (fun _ => none) cexParse "Tobit" 2 3) ∧
      scrape_verse [] cexCache cexNet cexParse "Tobit" 2 3 =
        scrapePhase2 cexNet cexParse "Tobit" 2 3 cexCache
          ((build_urls "Tobit" 2 3).foldl
            (cacheScanStep cexCache cexParse "Tobit" 2 3) ([], false)).1
          (build_urls "Tobit" 2 3) :=
  ⟨((scrape_verse_cache_first_policy []
        (fun k => if k = ⟨"Tobit", "catholic", 2, 3⟩ then some goodPage else none)
        cexNet (fun _ => none) cexParse "Tobit" 2 3).1 (by decide)).1,
    (scrape_verse_cache_first_policy [] cexCache cexNet cexNet cexParse "Tobit" 2 3).2
      (by decide) (by decide)⟩

/-! ## HTML extractor (bible_scraper.py, clean_verse_text lines 227 to 243 and
parse_verse_page lines 245 to 352)

The parsed DOM is modelled as a tree of text nodes and element nodes carrying
tag name, class list, attributes and children.  bs4 find_all walks the tree
in document order; next_sibling walks the remainder of the parent's child
list, which the embedding passes along explicitly. -/

/-- The tags treated as block-level stops by parse_verse_page (lines 281 and
299). -/
def isBlockTag (t : String) : Bool :=
  t = "div" || t = "table" || t = "tr" || t = "td" || t = "th" || t = "ul" ||
    t = "ol" || t = "li" || t = "hr"

/-- A node of the parsed page. -/
inductive HNode where
  | text (s : String)
  | elem (tag : String) (classes : List String) (attrs : List (String × String))
      (children : List HNode)

/-- A span carrying the versiontext class (the structural version marker). -/
def isVersionSpan : HNode → Bool
  | .elem t cls _ _ => t = "span" && cls.contains "versiontext"
  | .text _ => false

/-- An element whose tag is block-level. -/
def isBlockNode : HNode → Bool
  | .elem t _ _ _ => isBlockTag t
  | .text _ => false

/-- Model of the bs4 tag-stripping pass of clean_verse_text (lines 232 to
234): characters between an opening and a closing angle bracket are dropped,
a space standing in for each tag boundary; the following whitespace collapse
and strip absorb the separator differences of get_text. -/
def stripTagsAux : Bool → List Char → List Char
  | _, [] => []
  | true, c :: cs => if c = '>' then ' ' :: stripTagsAux false cs else stripTagsAux true cs
  | false, c :: cs => if c = '<' then ' ' :: stripTagsAux true cs else c :: stripTagsAux false cs

/-- String form of the tag-stripping pass. -/
def stripTagsStr (s : String) : String := String.mk (stripTagsAux false s.data)

/-- Model of html.unescape (line 237) on the standard basic entities: the
named amp, lt, gt, quot and nbsp forms and the decimal apostrophe. -/
def unescapeAux : List Char → List Char
  | [] => []
  | '&' :: 'a' :: 'm' :: 'p' :: ';' :: cs => '&' :: unescapeAux cs
  | '&' :: 'l' :: 't' :: ';' :: cs => '<' :: unescapeAux cs
  | '&' :: 'g' :: 't' :: ';' :: cs => '>' :: unescapeAux cs
  | '&' :: 'q' :: 'u' :: 'o' :: 't' :: ';' :: cs => '"' :: unescapeAux cs
  | '&' :: '#' :: '3' :: '9' :: ';' :: cs => Char.ofNat 39 :: unescapeAux cs
  | '&' :: 'n' :: 'b' :: 's' :: 'p' :: ';' :: cs => ' ' :: unescapeAux cs
  | c :: cs => c :: unescapeAux cs

/-- clean_verse_text: empty in, empty out; otherwise strip markup, decode
entities, collapse whitespace runs to single spaces, and strip the ends. -/
def clean_verse_text (text : String) : String :=
  if text = "" then ""
  else trimStr (collapseWs (String.mk (unescapeAux (stripTagsStr text).data)))

mutual
/-- All text leaves of a node, in document order (first of the mutual pair). -/
def nodeTextsN : HNode → List String
  | .text s => [s]
  | .elem _ _ _ ch => nodeTextsL ch

/-- All text leaves under a list of nodes, in document order. -/
def nodeTextsL : List HNode → List String
  | [] => []
  | n :: rest => nodeTextsN n ++ nodeTextsL rest
end

/-- Concatenation of a list of strings with no separator. -/
def joinAll : List String → String
  | [] => ""
  | [s] => s
  | s :: rest => s ++ joinAll rest

/-- Model of bs4 get_text applied with strip true and the default empty
separator: each text leaf is stripped, then all are concatenated. -/
def getTextStrip (n : HNode) : String := joinAll ((nodeTextsN n).map trimStr)

mutual
/-- Model of bs4 find for a tag name on a node: first matching descendant in
document order. -/
def findTagN (tag : String) : HNode → Option HNode
  | .text _ => none
  | .elem t c a ch => if t = tag then some (.elem t c a ch) else findTagL tag ch

/-- Model of bs4 find for a tag name over a list of subtrees. -/
def findTagL (tag : String) : List HNode → Option HNode
  | [] => none
  | n :: rest =>
    match findTagN tag n with
    | some r => some r
    | none => findTagL tag rest
end

mutual
/-- The inner collect_text closure of parse_verse_page (lines 270 to 287) on
one node: a text node contributes its stripped text when non-blank; a
versiontext span or block-level element aborts the walk (second component
false); any other element recurses into its children, keeping the parts
collected before an abort. -/
def collectTextN : HNode → List String × Bool
  | .text s => (if trimStr s ≠ "" then [trimStr s] else [], true)
  | .elem t cls _ ch =>
    if t = "span" && cls.contains "versiontext" then ([], false)
    else if isBlockTag t then ([], false)
    else collectTextL ch

/-- collect_text over a child list: parts accumulate left to right until a
child aborts. -/
def collectTextL : List HNode → List String × Bool
  | [] => ([], true)
  | n :: rest =>
    let r := collectTextN n
    if r.2 then
      let r2 := collectTextL rest
      (r.1 ++ r2.1, r2.2)
    else (r.1, false)
end

/-- The leading-skip loop of parse_verse_page (lines 290 to 291): pass over
whitespace-only text nodes and br elements before the first content. -/
def skipLeadingWs : List HNode → List HNode
  | [] => []
  | .text s :: rest => if trimStr s = "" then skipLeadingWs rest else .text s :: rest
  | .elem t c a ch :: rest => if t = "br" then skipLeadingWs rest else .elem t c a ch :: rest

/-- The sibling walk of parse_verse_page (lines 293 to 303): stop at the next
versiontext span or at a block-level element; otherwise collect the node's
text and continue unless the node's own subtree hit a stop. -/
def walkCollect : List HNode → List String
  | [] => []
  | n :: rest =>
    if isVersionSpan n then []
    else if isBlockNode n then []
    else
      let r := collectTextN n
      if r.2 then r.1 ++ walkCollect rest else r.1

/-- Model of the Python join of the collected parts with single spaces. -/
def joinSp : List String → String
  | [] => ""
  | [s] => s
  | s :: rest => s ++ " " ++ joinSp rest

/-- The per-marker body of the primary strategy (lines 259 to 308): for a
versiontext span, the label is the stripped text of its first anchor
descendant (skipped when there is no anchor or the label is empty); the verse
text is the cleaned join of the sibling walk after the leading skip, recorded
only when non-empty. -/
def spanEntry (n : HNode) (siblings : List HNode) : List (String × String) :=
  if isVersionSpan n then
    match n with
    | .elem _ _ _ ch =>
      match findTagL "a" ch with
      | none => []
      | some link =>
        let nm := getTextStrip link
        if nm = "" then []
        else
          let vt := clean_verse_text (joinSp (walkCollect (skipLeadingWs siblings)))
          if vt ≠ "" then [(nm, vt)] else []
    | .text _ => []
  else []

mutual
/-- Results of all versiontext spans inside one node (document order). -/
def spanResultsN : HNode → List (String × String)
  | .text _ => []
  | .elem _ _ _ ch => spanResultsL ch

/-- Results of all versiontext spans of a sibling list, each span walking the
siblings that follow it at its own level (document order, as bs4 find_all
yields them). -/
def spanResultsL : List HNode → List (String × String)
  | [] => []
  | n :: rest => spanEntry n rest ++ spanResultsN n ++ spanResultsL rest
end

/-- Primary strategy result: the translations dict built by assignment in
document order. -/
def parsePrimary (roots : List HNode) : List (String × String) :=
  (spanResultsL roots).foldl (fun d p => dictInsert d p.1 p.2) []

mutual
/-- Model of soup.find applied to a div with id par (line 312), on one node. -/
def findParDivN : HNode → Option HNode
  | .text _ => none
  | .elem t cls attrs ch =>
    if t = "div" ∧ alookup attrs "id" = some "par" then some (.elem t cls attrs ch)
    else findParDivL ch

/-- Model of soup.find applied to a div with id par, over a list of subtrees. -/
def findParDivL : List HNode → Option HNode
  | [] => none
  | n :: rest =>
    match findParDivN n with
    | some r => some r
    | none => findParDivL rest
end

/-- The fallback sibling walk (lines 329 to 343): stop at the next anchor,
paragraph or rule; text nodes contribute stripped text, other elements their
get_text. -/
def parCollect : List HNode → List String
  | [] => []
  | n :: rest =>
    match n with
    | .elem t cls attrs ch =>
      if t = "a" || t = "p" || t = "hr" then []
      else
        let tx := getTextStrip (.elem t cls attrs ch)
        (if tx ≠ "" then [tx] else []) ++ parCollect rest
    | .text s =>
      (if trimStr s ≠ "" then [trimStr s] else []) ++ parCollect rest

/-- The per-anchor body of the fallback strategy (lines 317 to 348): the
label comes from the stem of an embedded image's src (upper-cased) when one
with a truthy src exists, else from the anchor's own text; empty and PARALLEL
labels are skipped; the verse text is the cleaned join of the fallback walk. -/
def anchorEntry (n : HNode) (siblings : List HNode) : List (String × String) :=
  match n with
  | .elem t _ _ ch =>
    if t = "a" then
      let nm :=
        match findTagL "img" ch with
        | some (.elem _ _ attrs _) =>
          match alookup attrs "src" with
          | some src =>
            if src ≠ "" then upperStr (stemOf src)
            else upperStr (getTextStrip (HNode.elem t [] [] ch))
          | none => upperStr (getTextStrip (HNode.elem t [] [] ch))
        | _ => upperStr (getTextStrip (HNode.elem t [] [] ch))
      if nm = "" ∨ nm = "PARALLEL" then []
      else
        let vt := clean_verse_text (joinSp (parCollect siblings))
        if vt ≠ "" then [(nm, vt)] else []
    else []
  | .text _ => []

mutual
/-- Results of all anchors inside one node (document order). -/
def anchorResultsN : HNode → List (String × String)
  | .text _ => []
  | .elem _ _ _ ch => anchorResultsL ch

/-- Results of all anchors of a sibling list, each walking its following
siblings. -/
def anchorResultsL : List HNode → List (String × String)
  | [] => []
  | n :: rest => anchorEntry n rest ++ anchorResultsN n ++ anchorResultsL rest
end

/-- The Parallel Verses fallback (lines 311 to 348): nothing without a par
div; otherwise the anchor results of the div's subtree, assigned in document
order. -/
def parFallback (roots : List HNode) : List (String × String) :=
  match findParDivL roots with
  | some (.elem _ _ _ ch) =>
    (anchorResultsL ch).foldl (fun d p => dictInsert d p.1 p.2) []
  | _ => []

/-- parse_verse_page: the primary versiontext strategy, falling back to the
Parallel Verses structure only when the primary yields nothing. -/
def parse_verse_page (roots : List HNode) : List (String × String) :=
  let translations := parsePrimary roots
  if translations = [] then parFallback roots else translations

/-- A version marker as BibleHub renders it: a versiontext span holding an
anchor with the translation label. -/
def versionSpanNode (label : String) : HNode :=
  .elem "span" ["versiontext"] [] [.elem "a" [] [] [.text label]]

/-- Claim C5, confirmed.  On a page with two version markers labeled A and B
and bodies t1 and t2 (labels and bodies already in stripped and cleaned form
and non-empty, the labels distinct), extraction returns exactly A mapped to
t1 and B mapped to t2, whether the two labeled blocks are separated by a
block-level boundary or the second marker directly ends the first body: the
collection for A stops at the div or at the B marker, so no text of one body
appears under the other label. -/
theorem extractor_stopping_rule (A B t1 t2 : String)
    (hA : trimStr A = A) (hA0 : A ≠ "")
    (hB : trimStr B = B) (hB0 : B ≠ "") (hAB : A ≠ B)
    (ht1 : trimStr t1 = t1) (ht1c : clean_verse_text t1 = t1) (ht10 : t1 ≠ "")
    (ht2 : trimStr t2 = t2) (ht2c : clean_verse_text t2 = t2) (ht20 : t2 ≠ "") :
    parse_verse_page
        [versionSpanNode A, .text t1, .elem "div" [] [] [],
         versionSpanNode B, .text t2] = [(A, t1), (B, t2)] ∧
      parse_verse_page
        [versionSpanNode A, .text t1, versionSpanNode B, .text t2] =
          [(A, t1), (B, t2)] := by
  constructor
  · simp [parse_verse_page, parsePrimary, spanResultsL, spanResultsN, spanEntry,
      versionSpanNode, isVersionSpan, findTagL, findTagN, getTextStrip, nodeTextsN,
      nodeTextsL, joinAll, walkCollect, skipLeadingWs, collectTextN, collectTextL,
      joinSp, dictInsert, isBlockTag, isBlockNode, hA, hA0, hB, hB0, hAB, ht1, ht1c,
      ht10, ht2, ht2c, ht20]
  · simp [parse_verse_page, parsePrimary, spanResultsL, spanResultsN, spanEntry,
      versionSpanNode, isVersionSpan, findTagL, findTagN, getTextStrip, nodeTextsN,
      nodeTextsL, joinAll, walkCollect, skipLeadingWs, collectTextN, collectTextL,
      joinSp, dictInsert, isBlockTag, isBlockNode, hA, hA0, hB, hB0, hAB, ht1, ht1c,
      ht10, ht2, ht2c, ht20]

/-- Witness for extractor_stopping_rule, at the end-to-end example of the
specification: the KJV and WEB renderings of Genesis 1:1. -/
theorem extractor_stopping_rule_witness :
    parse_verse_page
        [versionSpanNode "KJV",
         HNode.text "In the beginning God created the heaven and the earth.",
         HNode.elem "div" [] [] [], versionSpanNode "WEB",
         HNode.text "In the beginning, God created the heavens and the earth."] =
      [("KJV", "In the beginning God created the heaven and the earth."),
       ("WEB", "In the beginning, God created the heavens and the earth.")] :=
  (extractor_stopping_rule "KJV" "WEB"
      "In the beginning God created the heaven and the earth."
      "In the beginning, God created the heavens and the earth."
      (by decide) (by decide) (by decide) (by decide) (by decide) (by decide)
      (by decide) (by decide) (by decide) (by decide) (by decide)).1
